import Mathlib

/-!
# Verification of the ziro process/port/removal engine

Shallow embedding of the core operations of the `ziro` command-line tool
(Rust), together with theorems settling the specification claims.

Paths are modelled as lists of path components (`List String`), mirroring
Rust's `Path::components`.  OS interaction (process snapshots, `kill`
acceptance, filesystem deletion outcomes, lock probes) is modelled by
explicit environment records passed to the embedded functions, so every
embedded function is a pure, executable Lean function whose control flow
mirrors the Rust source line by line.
-/

namespace Ziro

/-- A filesystem path, as its sequence of components
(Rust `Path::components to count`). -/
abbrev RPath := List String

/-- `FileInfo` from `src/core/fs_ops/mod.rs` (and `src/file.rs`):
`{path, is_dir, size, is_symlink}`. -/
structure FileInfo where
  path : RPath
  is_dir : Bool
  size : Nat
  is_symlink : Bool
deriving Repr, DecidableEq

/-- Depth of an entry: `path.components().count()` in the Rust source. -/
def FileInfo.depth (f : FileInfo) : Nat := f.path.length

/-- The comparator passed to `sort_by` in `remove_files_individually`
(`src/core/fs_ops/mod.rs`, lines 181-191) and in `remove_files`
(`src/file.rs`, lines 299-311): directories sort after files
(`Greater`/`Less`), and within a group `depth_b.cmp(&depth_a)` puts deeper
entries first. -/
def cmpFile (a b : FileInfo) : Ordering :=
  if a.is_dir && !b.is_dir then .gt
  else if !a.is_dir && b.is_dir then .lt
  else compare b.depth a.depth

/-- The boolean "less or equal" relation induced by the comparator:
a stable sort by `cmpFile` places `a` no later than `b` exactly when the
comparator does not say `Greater`. -/
def leFile (a b : FileInfo) : Bool := cmpFile a b != .gt

/-- Rust's stable `sort_by` on the deletion plan: the execution order used
by `remove_files_individually` / `remove_files`. -/
def sortForRemoval (files : List FileInfo) : List FileInfo :=
  files.mergeSort leFile

theorem compare_ne_gt_iff (m n : Nat) :
    (compare m n != Ordering.gt) = true ↔ m ≤ n := by
  rcases h : compare m n with _ | _ | _
  · rw [Nat.compare_eq_lt] at h
    exact ⟨fun _ => Nat.le_of_lt h, fun _ => by decide⟩
  · rw [Nat.compare_eq_eq] at h
    exact ⟨fun _ => Nat.le_of_eq h, fun _ => by decide⟩
  · rw [Nat.compare_eq_gt] at h
    exact ⟨fun hc => absurd hc (by decide), fun hle => absurd hle (by omega)⟩

theorem leFile_iff (a b : FileInfo) :
    leFile a b = true ↔
      ((!a.is_dir && b.is_dir) = true ∨
       (a.is_dir = b.is_dir ∧ b.depth ≤ a.depth)) := by
  unfold leFile cmpFile
  rcases ha : a.is_dir <;> rcases hb : b.is_dir <;> simp [ha, hb] <;>
    first
      | exact compare_ne_gt_iff _ _
      | decide

theorem leFile_trans (a b c : FileInfo) :
    leFile a b = true → leFile b c = true → leFile a c = true := by
  rw [leFile_iff, leFile_iff, leFile_iff]
  rintro (h₁ | ⟨h₁, h₁d⟩) (h₂ | ⟨h₂, h₂d⟩) <;>
    rcases ha : a.is_dir <;> rcases hb : b.is_dir <;> rcases hc : c.is_dir <;>
      simp_all <;> omega

theorem leFile_total (a b : FileInfo) :
    (leFile a b || leFile b a) = true := by
  rcases h : leFile a b
  · have h' : ¬ ((!a.is_dir && b.is_dir) = true ∨
        (a.is_dir = b.is_dir ∧ b.depth ≤ a.depth)) := by
      rw [← leFile_iff]; simp [h]
    rw [Bool.false_or, leFile_iff]
    push_neg at h'
    rcases ha : a.is_dir <;> rcases hb : b.is_dir <;> simp_all <;> omega
  · simp

/-- The sorted plan is pairwise ordered by `leFile`. -/
theorem sortForRemoval_pairwise (files : List FileInfo) :
    (sortForRemoval files).Pairwise (fun a b => leFile a b = true) :=
  List.sorted_mergeSort leFile_trans leFile_total files

/-- The sorted plan is a permutation of the accepted plan. -/
theorem sortForRemoval_perm (files : List FileInfo) :
    (sortForRemoval files).Perm files :=
  List.mergeSort_perm files leFile

/-- C5. For every accepted plan, the execution order produced by
`remove_files_individually` places every file entry before every directory
entry; within a group, deeper entries (more path components) come first;
consequently no directory precedes an entry lying strictly below it
(every child path precedes its parent). -/
theorem removal_order_files_first_deepest_first (files : List FileInfo) :
    (sortForRemoval files).Pairwise (fun a b =>
      (a.is_dir = true → b.is_dir = true) ∧
      (a.is_dir = b.is_dir → b.depth ≤ a.depth) ∧
      ¬(a.is_dir = true ∧ a.path <+: b.path ∧ a.path ≠ b.path)) := by
  refine (sortForRemoval_pairwise files).imp ?_
  intro a b hle
  rw [leFile_iff] at hle
  have hparts : (a.is_dir = true → b.is_dir = true) ∧
      (a.is_dir = b.is_dir → b.depth ≤ a.depth) := by
    rcases hle with h | ⟨h, hd⟩
    · simp only [Bool.and_eq_true, Bool.not_eq_true'] at h
      constructor
      · intro ha; rw [h.1] at ha; cases ha
      · intro hab; rw [h.1, h.2] at hab; cases hab
    · exact ⟨fun ha => by rw [← h, ha], fun _ => hd⟩
  refine ⟨hparts.1, hparts.2, ?_⟩
  rintro ⟨ha, hpre, hne⟩
  have hlen : a.path.length < b.path.length := by
    rcases Nat.lt_or_ge a.path.length b.path.length with h | h
    · exact h
    · exact absurd (List.IsPrefix.eq_of_length_le hpre h) hne
  have hb : b.is_dir = true := hparts.1 ha
  have := hparts.2 (ha.trans hb.symm)
  simp only [FileInfo.depth] at this
  omega

/-! ## Removal engine execution (`src/core/fs_ops/mod.rs`) -/

/-- Outcomes of the OS-level calls made by the fs_ops removal engine:
whether `remove_entry` succeeds on an entry, and whether the Windows
bulk `remove_dir_all_with_symlinks` succeeds on a root. -/
structure RemovalEnv where
  deleteOk : FileInfo → Bool
  bulkOk : RPath → Bool

/-- The root-directory search in `try_windows_bulk_remove`
(`src/core/fs_ops/mod.rs`, lines 133-138): the first directory entry such
that no other entry's path is a proper ancestor of it
(`f.path.starts_with(&other.path)` with `other.path != f.path`). -/
def findBulkRoot (files : List FileInfo) : Option FileInfo :=
  files.find? (fun f => f.is_dir &&
    !(files.any (fun other =>
        decide (other.path ≠ f.path) && other.path.isPrefixOf f.path)))

/-- `try_windows_bulk_remove` (`src/core/fs_ops/mod.rs`, lines 126-168).
Returns the optional result list together with the filesystem deletions it
attempted; a dry run returns a single hypothetical success for the root
and attempts nothing; a failed bulk call returns `none` (the caller then
falls back to per-entry deletion) after having attempted the bulk delete. -/
def try_windows_bulk_remove (env : RemovalEnv) (files : List FileInfo)
    (dry_run : Bool) : Option (List (RPath × Bool)) × List RPath :=
  match findBulkRoot files with
  | none => (none, [])
  | some root =>
      if dry_run then (some [(root.path, true)], [])
      else if env.bulkOk root.path then (some [(root.path, true)], [root.path])
      else (none, [root.path])

/-- `remove_files_individually` (`src/core/fs_ops/mod.rs`, lines 171-219):
sort the plan (files first, deeper first) and process entries in order;
under `dry_run` every entry is reported `Ok` and no deletion is attempted.
Returns the per-entry results and the list of attempted deletions. -/
def remove_files_individually (env : RemovalEnv) (files : List FileInfo)
    (dry_run : Bool) : List (RPath × Bool) × List RPath :=
  let sorted := sortForRemoval files
  (sorted.map (fun f => (f.path, if dry_run then true else env.deleteOk f)),
   if dry_run then [] else sorted.map (·.path))

/-- `remove_files` (`src/core/fs_ops/mod.rs`, lines 106-122): on Windows
try the bulk fast path first, otherwise (and on every other OS) delete
entries one by one. `windows` models `cfg!(target_os = "windows")`. -/
def remove_files (env : RemovalEnv) (windows : Bool) (files : List FileInfo)
    (dry_run : Bool) : List (RPath × Bool) × List RPath :=
  if windows then
    match try_windows_bulk_remove env files dry_run with
    | (some results, effects) => (results, effects)
    | (none, effects) =>
        let indiv := remove_files_individually env files dry_run
        (indiv.1, effects ++ indiv.2)
  else
    remove_files_individually env files dry_run

/-- A removal environment in which every OS call succeeds. -/
def egRemovalEnv : RemovalEnv :=
  { deleteOk := fun _ => true, bulkOk := fun _ => true }

/-- A two-entry plan: the user-specified directory `build` and the file
`build/a` inside it (what planning produces for `remove(["build"])` with
one file inside). -/
def egBulkPlan : List FileInfo :=
  [⟨["build"], true, 0, false⟩, ⟨["build", "a"], false, 1, false⟩]

/-! ## Differential renderer (`src/ui/render.rs`) -/

/-- One terminal operation of the per-line diff loop in `render_frame`
(`src/ui/render.rs`, lines 634-652): move the cursor down one row
(`\x1b[E`), clear-and-rewrite a line (`\x1b[2K{line}\r\n`), or clear a
stale trailing line (`\x1b[2K\r\n`). -/
inductive LineOp where
  | advance
  | rewrite (line : String)
  | clearOld
deriving Repr, DecidableEq

/-- The per-line diff loop of `render_frame`: for each row, identical
lines advance the cursor; new or changed lines are cleared and rewritten;
trailing lines of a longer previous frame are cleared. -/
def diffLineOps : List String → List String → List LineOp
  | [], [] => []
  | newLine :: newRest, [] => .rewrite newLine :: diffLineOps newRest []
  | [], _ :: oldRest => .clearOld :: diffLineOps [] oldRest
  | newLine :: newRest, oldLine :: oldRest =>
      (if newLine = oldLine then .advance else .rewrite newLine)
        :: diffLineOps newRest oldRest

/-- `changed_lines` of `render_frame`: the number of non-advance line
operations. -/
def countChanged (ops : List LineOp) : Nat :=
  ops.countP (fun op => match op with | .advance => false | _ => true)

/-- `render_frame` (`src/ui/render.rs`, lines 615-673), as the line
operations it emits and the updated previous-frame buffer.  The
non-incremental fallback prints every line unconditionally; the
incremental path diffs against the previous frame and keeps the buffer
unchanged when nothing changed and the frame length is unchanged. -/
def render_frame (lines lastFrame : List String) (incremental : Bool) :
    List LineOp × List String :=
  if !incremental then
    (lines.map .rewrite, lastFrame)
  else
    let ops := diffLineOps lines lastFrame
    (ops,
     if countChanged ops > 0 ∨ lines.length ≠ lastFrame.length then lines
     else lastFrame)

/-! ## Theorems on dry-run execution (C3) and differential rendering (C6) -/

/-- C3 counterexample. On the Windows bulk path, a dry run of a plan with
2 entries (directory `build` plus the file `build/a`) returns a single
hypothetical success for the root directory, not one success per planned
entry. -/
theorem dry_run_bulk_returns_single_result :
    egBulkPlan.length = 2 ∧
    (remove_files egRemovalEnv true egBulkPlan true).1.length = 1 := by
  constructor
  · rfl
  · rfl

/-- C3 (amended). A dry run attempts no filesystem deletion (the effect
list is empty, so the filesystem state is unchanged) and reports only
hypothetical successes; on the per-entry path the result has exactly one
entry per planned entry, but on the Windows bulk path (a user-specified
root directory exists in the plan) it is a single success for that root. -/
theorem remove_files_dry_run_no_mutation (env : RemovalEnv) (windows : Bool)
    (files : List FileInfo) :
    (remove_files env windows files true).2 = [] ∧
    (remove_files env windows files true).1.all (fun r => r.2) = true ∧
    (remove_files env windows files true).1.length =
      (if windows then
        match findBulkRoot files with
        | some _ => 1
        | none => files.length
       else files.length) := by
  rcases windows with _ | _
  · simp [remove_files, remove_files_individually, sortForRemoval,
      List.length_mergeSort, List.all_eq_true]
  · rcases h : findBulkRoot files with _ | root <;>
      simp [remove_files, try_windows_bulk_remove, h,
        remove_files_individually, sortForRemoval, List.length_mergeSort,
        List.all_eq_true]

theorem diffLineOps_self (lines : List String) :
    diffLineOps lines lines = List.replicate lines.length LineOp.advance := by
  induction lines with
  | nil => simp [diffLineOps]
  | cons a rest ih => simp [diffLineOps, ih, List.replicate_succ]

theorem countChanged_replicate_advance (n : Nat) :
    countChanged (List.replicate n LineOp.advance) = 0 := by
  induction n with
  | zero => rfl
  | succ n ih =>
      rw [List.replicate_succ]
      simp [countChanged, List.countP_cons]

/-- C6. On two identical consecutive frames, the incremental renderer
emits only cursor-advance operations: no line is cleared or rewritten
(`changed_lines = 0`). -/
theorem identical_frames_only_cursor_advance (lines : List String) :
    (render_frame lines lines true).1 = List.replicate lines.length LineOp.advance ∧
    countChanged (render_frame lines lines true).1 = 0 := by
  have hops : (render_frame lines lines true).1 = diffLineOps lines lines := by
    simp [render_frame]
  rw [hops, diffLineOps_self]
  exact ⟨rfl, countChanged_replicate_advance lines.length⟩

/-! ## Process lifecycle (`src/core/process/mod.rs`, `src/process.rs`) -/

/-- Errors surfaced by the kill operations (the `anyhow!` messages of the
source, by kind). -/
inductive KillErr where
  | notFound (pid : Nat)          -- "进程 {pid} 不存在"
  | permissionDenied (pid : Nat)  -- "无法终止进程 {pid} (可能需要管理员权限)"
deriving Repr, DecidableEq

/-- `kill_process` (`src/core/process/mod.rs` lines 19-36 and
`src/process.rs` lines 83-100, which are identical): take a fresh process
snapshot; if the pid is present, send one termination signal and report
the OS's acceptance; if the pid is absent, return the "process does not
exist" error.  The snapshot maps a running pid to whether `kill()` would
be accepted for it. -/
def kill_process (snapshot : Nat → Option Bool) (pid : Nat) :
    Except KillErr Unit :=
  match snapshot pid with
  | some killOk => if killOk then .ok () else .error (.permissionDenied pid)
  | none => .error (.notFound pid)

/-- The interaction of one `kill_process_force` call with the OS: the
initial existence check, and per attempt the snapshot, the signal
acceptance, and the post-500ms re-check. -/
structure ForceEnv where
  existsAtStart : Bool
  existsAt : Nat → Bool
  killAccepted : Nat → Bool
  goneAfterWait : Nat → Bool

/-- Observable outcome of `kill_process_force`: success flag, number of
termination signals sent (`process.kill()` calls), and total milliseconds
slept. -/
structure ForceOutcome where
  ok : Bool
  signals : Nat
  sleepMs : Nat
deriving Repr, DecidableEq

/-- The `for attempt in 1..=3` loop of `kill_process_force`
(`src/core/process/mod.rs`, lines 60-94): re-snapshot; if the pid is gone,
succeed; otherwise send a signal; if accepted, sleep 500ms and succeed
when the re-check shows the pid gone; if rejected on the final attempt,
fail; between attempts (attempt < 3) sleep 1000ms.  An exhausted loop
fails ("process may still be running"). -/
def kill_force_loop (env : ForceEnv) : List Nat → ForceOutcome
  | [] => ⟨false, 0, 0⟩
  | attempt :: rest =>
      if env.existsAt attempt then
        if env.killAccepted attempt then
          if env.goneAfterWait attempt then ⟨true, 1, 500⟩
          else
            let tail := kill_force_loop env rest
            ⟨tail.ok, tail.signals + 1,
             tail.sleepMs + 500 + (if attempt < 3 then 1000 else 0)⟩
        else
          if attempt == 3 then ⟨false, 1, 0⟩
          else
            let tail := kill_force_loop env rest
            ⟨tail.ok, tail.signals + 1,
             tail.sleepMs + (if attempt < 3 then 1000 else 0)⟩
      else ⟨true, 0, 0⟩

/-- `kill_process_force` (`src/core/process/mod.rs`, lines 44-97): absent
pid is an immediate success; otherwise run the 3-attempt loop. -/
def kill_process_force (env : ForceEnv) : ForceOutcome :=
  if env.existsAtStart then kill_force_loop env [1, 2, 3]
  else ⟨true, 0, 0⟩

/-- C1 counterexample. In a snapshot containing no processes at all,
`kill_process 9999` returns the "process does not exist" error — not the
success the claim demands for an absent pid. -/
theorem kill_process_absent_counterexample :
    kill_process (fun _ => none) 9999 = .error (.notFound 9999) := by
  rfl

/-- C1 (amended). For every fresh snapshot and pid, when no process with
that pid exists `kill_process` returns the NotFound-kind error "process
does not exist"; killing an already-dead process is reported as an error,
not as a no-op success (only `kill_process_force` treats absence as
success). -/
theorem kill_process_absent_is_error (snapshot : Nat → Option Bool)
    (pid : Nat) (h : snapshot pid = none) :
    kill_process snapshot pid = .error (.notFound pid) := by
  unfold kill_process
  rw [h]

/-- Witness for C1's amended theorem at the empty snapshot and pid 5. -/
theorem kill_process_absent_is_error_witness :
    kill_process (fun _ => none) 5 = .error (.notFound 5) :=
  kill_process_absent_is_error (fun _ => none) 5 rfl

/-- Worst-case sleep of the force-kill loop over a given attempt list:
500ms after each accepted signal plus 1000ms between non-final attempts. -/
def sleepBudget : List Nat → Nat
  | [] => 0
  | a :: rest => 500 + (if a < 3 then 1000 else 0) + sleepBudget rest

theorem kill_force_loop_bound (env : ForceEnv) (l : List Nat) :
    (kill_force_loop env l).signals ≤ l.length ∧
    (kill_force_loop env l).sleepMs ≤ sleepBudget l := by
  induction l with
  | nil => simp [kill_force_loop, sleepBudget]
  | cons a rest ih =>
      simp only [kill_force_loop, sleepBudget, List.length_cons]
      split_ifs <;> simp_all <;> omega

/-- C8. For every environment, `kill_process_force` sends at most 3
termination signals and sleeps at most 3×500ms + 2×1000ms = 3500ms before
returning. -/
theorem kill_force_bounded (env : ForceEnv) :
    (kill_process_force env).signals ≤ 3 ∧
    (kill_process_force env).sleepMs ≤ 3500 := by
  unfold kill_process_force
  split_ifs with h
  · have hb := kill_force_loop_bound env [1, 2, 3]
    have hbudget : sleepBudget [1, 2, 3] = 3500 := rfl
    have hlen : ([1, 2, 3] : List Nat).length = 3 := rfl
    rw [hbudget, hlen] at hb
    exact hb
  · exact ⟨by simp, by simp⟩

/-! ## Port resolver (`src/port.rs`) -/

/-- `ProcessInfo` (`src/port.rs`, lines 80-87).  The `cpu_usage` and
`memory` samples are copied through unchanged from the snapshot; the
`f32` CPU sample is carried as an opaque raw value, no arithmetic is done
on it. -/
structure ProcessInfo where
  pid : Nat
  name : String
  cmd : List String
  cpu_usage : Nat
  memory : Nat
deriving Repr, DecidableEq

/-- `PortInfo` (`src/port.rs`, lines 90-94). -/
structure PortInfo where
  port : Nat
  process : ProcessInfo
deriving Repr, DecidableEq

/-- Lookup in the port → pid table produced by `get_network_connections`
(a `HashMap<u16, u32>`: at most one pid per port). -/
def lookupPort (table : List (Nat × Nat)) (port : Nat) : Option Nat :=
  (table.find? (fun e => e.1 == port)).map (·.2)

/-- `find_processes_by_ports` (`src/port.rs`, lines 97-129): for each
requested port in order, look the port up in the fresh connection table
and, when the owning pid resolves in the fresh process snapshot, emit one
`PortInfo`; ports without a binding or without a resolvable owner are
skipped silently.  A connection-table failure propagates as the only
error. -/
def resolveOne (table : List (Nat × Nat)) (snapshot : Nat → Option ProcessInfo)
    (port : Nat) : Option PortInfo :=
  match lookupPort table port with
  | some pid => (snapshot pid).map (fun pr => ⟨port, pr⟩)
  | none => none

def find_processes_by_ports (connections : Except String (List (Nat × Nat)))
    (snapshot : Nat → Option ProcessInfo) (ports : List Nat) :
    Except String (List PortInfo) :=
  match connections with
  | .error e => .error e
  | .ok table => .ok (ports.filterMap (resolveOne table snapshot))

theorem resolveOne_port_eq (table : List (Nat × Nat))
    (snapshot : Nat → Option ProcessInfo) (port : Nat) (info : PortInfo)
    (h : resolveOne table snapshot port = some info) : info.port = port := by
  unfold resolveOne at h
  rcases hl : lookupPort table port with _ | pid <;> rw [hl] at h <;> simp at h
  obtain ⟨pr, -, hinfo⟩ := h
  rw [← hinfo]

theorem filterMap_filter_port_le_count (table : List (Nat × Nat))
    (snapshot : Nat → Option ProcessInfo) (p : Nat) (ports : List Nat) :
    ((ports.filterMap (resolveOne table snapshot)).filter
      (fun i => i.port == p)).length ≤ ports.count p := by
  induction ports with
  | nil => simp
  | cons a rest ih =>
      rw [List.filterMap_cons]
      rcases h : resolveOne table snapshot a with _ | info
      · refine le_trans ih ?_
        rw [List.count_cons]
        split <;> omega
      · have hport := resolveOne_port_eq table snapshot a info h
        rw [List.filter_cons, List.count_cons]
        by_cases hip : info.port = p
        · have hap : a = p := by rw [← hport, hip]
          simp only [hip, beq_self_eq_true, if_pos, List.length_cons, hap]
          omega
        · have hfalse : (info.port == p) = false := by simp [hip]
          simp only [hfalse, Bool.false_eq_true, if_neg, reduceIte]
          refine le_trans ih ?_
          split <;> omega

/-- C7. For every connection table, process snapshot, and duplicate-free
requested port set, the resolver returns an `Ok` list in which every
entry's port was requested, each port occurs at most once, and a
requested port whose binding or owner does not resolve simply contributes
no entry — the call is still a success. -/
theorem resolve_ports_subset_and_unique (table : List (Nat × Nat))
    (snapshot : Nat → Option ProcessInfo) (ports : List Nat)
    (hnodup : ports.Nodup) :
    ∃ l, find_processes_by_ports (.ok table) snapshot ports = .ok l ∧
      (∀ info ∈ l, info.port ∈ ports) ∧
      (∀ p, (l.filter (fun i => i.port == p)).length ≤ 1) ∧
      (∀ p, resolveOne table snapshot p = none →
        ∀ info ∈ l, info.port ≠ p) := by
  refine ⟨ports.filterMap (resolveOne table snapshot), rfl, ?_, ?_, ?_⟩
  · intro info hmem
    rcases List.mem_filterMap.mp hmem with ⟨a, ha, hres⟩
    rw [← resolveOne_port_eq table snapshot a info hres] at ha
    exact ha
  · intro p
    calc ((ports.filterMap (resolveOne table snapshot)).filter
            (fun i => i.port == p)).length
        ≤ ports.count p := filterMap_filter_port_le_count table snapshot p ports
      _ ≤ 1 := List.nodup_iff_count_le_one.mp hnodup p
  · intro p hnone info hmem hport
    rcases List.mem_filterMap.mp hmem with ⟨a, _, hres⟩
    have : a = p := by rw [← resolveOne_port_eq table snapshot a info hres, hport]
    rw [this, hnone] at hres
    cases hres

/-- The end-to-end scenario's connection table: only port 8080 is bound,
to pid 500. -/
def egPortTable : List (Nat × Nat) := [(8080, 500)]

/-- The end-to-end scenario's snapshot: pid 500 is "nginx". -/
def egPortSnapshot : Nat → Option ProcessInfo :=
  fun pid => if pid == 500 then some ⟨500, "nginx", [], 0, 0⟩ else none

/-- Witness for C7 at the end-to-end scenario (ports [80, 8080], only
8080 bound, owner "nginx"). -/
theorem resolve_ports_subset_and_unique_witness :
    ([80, 8080] : List Nat).Nodup ∧
    ∃ l, find_processes_by_ports (.ok egPortTable) egPortSnapshot [80, 8080] = .ok l ∧
      (∀ info ∈ l, info.port ∈ [80, 8080]) ∧
      (∀ p, (l.filter (fun i => i.port == p)).length ≤ 1) ∧
      (∀ p, resolveOne egPortTable egPortSnapshot p = none →
        ∀ info ∈ l, info.port ≠ p) :=
  ⟨by decide,
   resolve_ports_subset_and_unique egPortTable egPortSnapshot [80, 8080] (by decide)⟩

/-! ## File-lock inspection (`src/core/process/mod.rs`, lines 107-153) -/

/-- `FileLockProcess` from `src/core/process/lock.rs`: one holder entry. -/
structure FileLockProcess where
  pid : Nat
  name : String
  cmd : String
deriving Repr, DecidableEq

/-- `FileLockInfo`: the lock report for one path. -/
structure FileLockInfo where
  path : RPath
  locked : Bool
  processes : List FileLockProcess
deriving Repr, DecidableEq

/-- The OS interaction of `inspect_file_locks`: the platform lock probe
(`is_file_locked`), the holder search (`find_processes_by_file`, whose
`Result` is collapsed by `unwrap_or_default`), and the process snapshot
(pid to name and command line). -/
structure LockEnv where
  is_file_locked : RPath → Bool
  find_processes_by_file : RPath → Option (List Nat)
  snapshot : Nat → Option (String × List String)

/-- Rust `Vec::dedup`: remove consecutive duplicates. -/
def rustDedup : List Nat → List Nat
  | [] => []
  | [a] => [a]
  | a :: b :: rest =>
      if a = b then rustDedup (b :: rest) else a :: rustDedup (b :: rest)

/-- `pids.sort_unstable(); pids.dedup();` from `inspect_file_locks`. -/
def rustSortDedup (pids : List Nat) : List Nat :=
  rustDedup (pids.mergeSort (· ≤ ·))

/-- The loop body of `inspect_file_locks` for one path: probe the lock,
collect sorted deduplicated holder pids, materialise a `FileLockProcess`
for every holder (an unresolvable pid becomes name "unknown" with an
empty command line), and force `locked` whenever any holder entry exists. -/
def inspect_one (env : LockEnv) (path : RPath) : FileLockInfo :=
  let locked0 := env.is_file_locked path
  let pids := rustSortDedup ((env.find_processes_by_file path).getD [])
  let processes := pids.map (fun pid =>
    match env.snapshot pid with
    | some (name, cmd) => ⟨pid, name, String.intercalate " " cmd⟩
    | none => ⟨pid, "unknown", ""⟩)
  let locked := locked0 || !processes.isEmpty
  ⟨path, locked, processes⟩

/-- `inspect_file_locks`: one `FileLockInfo` per requested path, always
`Ok`. -/
def inspect_file_locks (env : LockEnv) (paths : List RPath) :
    Except String (List FileLockInfo) :=
  .ok (paths.map (inspect_one env))

/-- A lock environment in which the platform probe reports unlocked, the
holder search returns the single pid 42, and no process resolves in the
snapshot. -/
def egLockEnv : LockEnv :=
  { is_file_locked := fun _ => false
    find_processes_by_file := fun _ => some [42]
    snapshot := fun _ => none }

theorem rustDedup_eq_nil_iff (l : List Nat) : rustDedup l = [] ↔ l = [] := by
  induction l with
  | nil => simp [rustDedup]
  | cons a rest ih =>
      cases rest with
      | nil => simp [rustDedup]
      | cons b rest' =>
          rw [rustDedup]
          split


          · simp only [List.cons_ne_nil, iff_false]
            intro hcontra
            exact absurd (ih.mp hcontra) (List.cons_ne_nil b rest')
          · simp

theorem rustSortDedup_eq_nil_iff (l : List Nat) :
    rustSortDedup l = [] ↔ l = [] := by
  unfold rustSortDedup
  rw [rustDedup_eq_nil_iff]
  constructor
  · intro h
    have := (List.mergeSort_perm l (fun a b : Nat => a ≤ b)).length_eq
    rw [h] at this
    exact List.length_eq_zero.mp this.symm
  · intro h
    rw [h, List.mergeSort_nil]

/-! ## Display truncation (`src/ui/render.rs`, lines 103-109) -/

/-- Byte length of a Rust `&str` (`s.len()`): the sum of the UTF-8 sizes
of its characters. -/
def rustByteLen (s : List Char) : Nat := (s.map Char.utf8Size).sum

/-- Rust byte slicing `&s[..k]`: `some` of the character prefix occupying
exactly `k` bytes when `k` falls on a character boundary, `none` (a Rust
panic) otherwise. -/
def byteSlicePrefix : List Char → Nat → Option (List Char)
  | _, 0 => some []
  | [], _ + 1 => none
  | c :: cs, k + 1 =>
      if c.utf8Size ≤ k + 1 then
        (byteSlicePrefix cs (k + 1 - c.utf8Size)).map (c :: ·)
      else none

/-- `truncate_string` (`src/ui/render.rs`, lines 103-109): return `s`
unchanged when its byte length fits in `max_len`, otherwise slice the
first `max_len.saturating_sub(3)` bytes and append `"..."`.  The result
is `none` exactly when the byte slice panics off a character boundary. -/
def truncate_string (s : List Char) (max_len : Nat) : Option (List Char) :=
  if rustByteLen s ≤ max_len then some s
  else (byteSlicePrefix s (max_len - 3)).map (· ++ ['.', '.', '.'])

/-! ## Theorems on lock reporting (C9) and display truncation (C10) -/

/-- C9 counterexample. With the platform probe reporting unlocked, the
holder search returning pid 42, and pid 42 resolving to no running
process, `inspect_file_locks` still reports `locked = true` (the
unresolved holder is materialised as an "unknown" entry), while the
claim's condition — probe OR a holder that resolves — is false. -/
theorem inspect_locked_despite_no_resolving_holder :
    (inspect_one egLockEnv ["f"]).locked = true ∧
    egLockEnv.is_file_locked ["f"] = false ∧
    (egLockEnv.find_processes_by_file ["f"]).getD [] = [42] ∧
    egLockEnv.snapshot 42 = none := by
  refine ⟨?_, rfl, rfl, rfl⟩
  simp [inspect_one, rustSortDedup, rustDedup, egLockEnv,
    List.mergeSort_singleton]

/-- C9 (amended). `locked` is true exactly when the platform probe
signals a lock OR the holder search yields at least one pid — resolvable
or not: an unresolvable holder pid still forces `locked = true` and is
reported with name "unknown". -/
theorem inspect_locked_iff_probe_or_any_holder (env : LockEnv) (path : RPath) :
    (inspect_one env path).locked =
      (env.is_file_locked path ||
       !((env.find_processes_by_file path).getD []).isEmpty) := by
  have hmap : ∀ (l : List Nat) (f : Nat → FileLockProcess),
      (l.map f).isEmpty = l.isEmpty := by
    intro l f; cases l <;> simp
  unfold inspect_one
  simp only [hmap]
  congr 1
  rcases hsrc : (env.find_processes_by_file path).getD [] with _ | ⟨a, rest⟩
  · simp [rustSortDedup, List.mergeSort_nil, rustDedup]
  · have hne : rustSortDedup (a :: rest) ≠ [] := by
      rw [Ne, rustSortDedup_eq_nil_iff]; simp
    rcases hre : rustSortDedup (a :: rest) with _ | _
    · exact absurd hre hne
    · simp

/-- C10. `truncate_string` on the 12-byte CJK string "你好世界" with
`max_len = 10` slices at byte index 7, which is not a character boundary:
the code panics instead of returning a truncated string. -/
theorem truncate_string_panics_on_multibyte :
    truncate_string (String.toList "你好世界") 10 = none ∧
    rustByteLen (String.toList "你好世界") = 12 := by
  constructor
  · decide
  · decide

/-! ## Removal planning (`src/core/fs_ops/mod.rs` lines 25-103 and
`src/file.rs` lines 168-285) -/

/-- A filesystem node as seen by planning: a regular file, a directory
with named entries, or a symbolic link carrying its own metadata size and
its raw target (with the `is_relative` flag of `Path::is_relative`). -/
inductive FsNode where
  | file (size : Nat)
  | dir (entries : List (String × FsNode))
  | symlink (size : Nat) (isRelative : Bool) (target : RPath)

/-- Planning errors, by the `anyhow!` message kinds of the source. -/
inductive PlanErr where
  | metadataUnavailable (p : RPath)  -- "无法获取文件元数据"
  | notFound (p : RPath)             -- "路径不存在"
  | needRecursive (p : RPath)        -- "目录删除需要 -r/--recursive 参数"
deriving Repr, DecidableEq

namespace FsOps

/-- `collect_dir_files` (`src/core/fs_ops/mod.rs`, lines 73-103): walk
the directory entries in order; a subdirectory contributes its own walk
followed by its directory entry; files and symlinks contribute one entry
each (symlinks are not followed). -/
def collectEntries (p : RPath) : List (String × FsNode) → List FileInfo
  | [] => []
  | (name, .file size) :: rest =>
      ⟨p ++ [name], false, size, false⟩ :: collectEntries p rest
  | (name, .symlink size _ _) :: rest =>
      ⟨p ++ [name], false, size, true⟩ :: collectEntries p rest
  | (name, .dir entries) :: rest =>
      (collectEntries (p ++ [name]) entries ++ [⟨p ++ [name], true, 0, false⟩])
        ++ collectEntries p rest

/-- `collect_files_to_remove` (`src/core/fs_ops/mod.rs`, lines 25-70):
for each requested root, missing metadata is an error; a directory is
walked recursively when `recursive` is set and otherwise accepted only
when empty; files and symlinks contribute one entry. -/
def collect_files_to_remove :
    List (RPath × Option FsNode) → Bool → Except PlanErr (List FileInfo)
  | [], _ => .ok []
  | (p, none) :: _, _ => .error (.metadataUnavailable p)
  | (p, some (.dir entries)) :: rest, recursive =>
      if recursive then
        (collect_files_to_remove rest recursive).map
          (fun fs => (collectEntries p entries ++ [⟨p, true, 0, false⟩]) ++ fs)
      else if entries.isEmpty then
        (collect_files_to_remove rest recursive).map
          (fun fs => ⟨p, true, 0, false⟩ :: fs)
      else .error (.needRecursive p)
  | (p, some (.file size)) :: rest, recursive =>
      (collect_files_to_remove rest recursive).map
        (fun fs => ⟨p, false, size, false⟩ :: fs)
  | (p, some (.symlink size _ _)) :: rest, recursive =>
      (collect_files_to_remove rest recursive).map
        (fun fs => ⟨p, false, size, true⟩ :: fs)

end FsOps

namespace Legacy

mutual

/-- First pass of the legacy `collect_dir_files` (`src/file.rs`, lines
209-269): emit non-directory entries in order.  A symlink's target is
resolved against the directory being walked when relative; a symlink
whose target is the walked directory or an ancestor of it is skipped as a
cycle. -/
def filesPass (dir : RPath) : List (String × FsNode) → List FileInfo
  | [] => []
  | (name, .file size) :: rest =>
      ⟨dir ++ [name], false, size, false⟩ :: filesPass dir rest
  | (name, .symlink size isRelative target) :: rest =>
      let targetPath := if isRelative then dir ++ target else target
      if targetPath = dir ∨ targetPath.isPrefixOf dir then filesPass dir rest
      else ⟨dir ++ [name], false, size, true⟩ :: filesPass dir rest
  | (_, .dir _) :: rest => filesPass dir rest

/-- Second pass of the legacy `collect_dir_files` (`src/file.rs`, lines
271-274): recurse into subdirectories in order. -/
def subdirPass (dir : RPath) : List (String × FsNode) → List FileInfo
  | [] => []
  | (name, .dir entries) :: rest =>
      collectDir (dir ++ [name]) entries ++ subdirPass dir rest
  | (_, .file _) :: rest => subdirPass dir rest
  | (_, .symlink _ _ _) :: rest => subdirPass dir rest

/-- The legacy `collect_dir_files` (`src/file.rs`, lines 203-285): files
and symlinks first, then the recursive subdirectory walks, then the
directory itself. -/
def collectDir (dir : RPath) (entries : List (String × FsNode)) :
    List FileInfo :=
  filesPass dir entries ++ subdirPass dir entries ++ [⟨dir, true, 0, false⟩]

end

/-- The legacy `collect_files_to_remove` (`src/file.rs`, lines 168-200):
a missing root is an error; files and symlinks contribute one entry; a
directory is walked only when `recursive` is set and is otherwise
rejected outright — even when empty. -/
def collect_files_to_remove :
    List (RPath × Option FsNode) → Bool → Except PlanErr (List FileInfo)
  | [], _ => .ok []
  | (p, none) :: _, _ => .error (.notFound p)
  | (p, some (.file size)) :: rest, recursive =>
      (collect_files_to_remove rest recursive).map
        (fun fs => ⟨p, false, size, false⟩ :: fs)
  | (p, some (.symlink size _ _)) :: rest, recursive =>
      (collect_files_to_remove rest recursive).map
        (fun fs => ⟨p, false, size, true⟩ :: fs)
  | (p, some (.dir entries)) :: rest, recursive =>
      if recursive then
        (collect_files_to_remove rest recursive).map
          (fun fs => collectDir p entries ++ fs)
      else .error (.needRecursive p)

end Legacy

/-- C4 counterexample. Planning an *empty* directory without the
recursive flag through the legacy planner (`src/file.rs`) fails with the
"directory deletion requires the recursive flag" error instead of producing
the single-entry plan the claim requires. -/
theorem legacy_planner_rejects_empty_dir :
    Legacy.collect_files_to_remove [(["d"], some (.dir []))] false =
      .error (.needRecursive ["d"]) := by
  rfl

/-- C4 (amended). For a directory requested without `recursive`, the core
fs_ops planner (`src/core/fs_ops/mod.rs`) behaves as the claim states —
error unless the directory is empty, and an empty directory yields the
plan containing exactly that directory's entry — while the legacy
`src/file.rs` planner rejects every directory lacking the recursive flag,
empty or not. -/
theorem plan_dir_without_recursive (p : RPath)
    (entries : List (String × FsNode)) :
    FsOps.collect_files_to_remove [(p, some (.dir entries))] false =
      (if entries.isEmpty then .ok [⟨p, true, 0, false⟩]
       else .error (.needRecursive p)) ∧
    Legacy.collect_files_to_remove [(p, some (.dir entries))] false =
      .error (.needRecursive p) := by
  constructor
  · rcases entries with _ | _ <;>
      simp [FsOps.collect_files_to_remove, Except.map]
  · rfl

/-! ## Legacy per-entry removal with lock handling (`src/file.rs`,
lines 288-602) -/

/-- Deletion-error kinds of `src/file.rs` (`DeletionError` plus the
`anyhow!` messages of the lock-handling and fallback paths). -/
inductive RmErr where
  | fileLocked (p : RPath)
  | permissionDenied (p : RPath)
  | notFound (p : RPath)
  | dirNotEmpty (p : RPath)
  | ioError (p : RPath)
  | lockedUseAnyway (p : RPath)       -- "文件被进程占用，使用 --anyway 参数强制删除"
  | lockedUnidentifiable (p : RPath)  -- "文件被占用但无法识别占用进程"
  | holderLookupFailed (p : RPath) (msg : String)
  | notSymlink (p : RPath)
  | criticalLink (p : RPath)
  | removeFailed (p : RPath)
deriving Repr, DecidableEq

/-- The `io::ErrorKind` cases distinguished by
`classify_deletion_error`, with the raw OS error code for the catch-all
case. -/
inductive IoKind where
  | permissionDenied
  | notFound
  | dirNotEmpty
  | otherKind (rawOsError : Option Nat)
deriving Repr, DecidableEq

/-- An OS action performed by the legacy removal chain: a forced kill of
a holder pid, a deletion system call, or an `attrib -R` invocation.
"Zero bytes deleted" for an entry means no deletion call names its path. -/
inductive Effect where
  | killForce (pid : Nat)
  | removeFileCall (p : RPath)
  | removeDirCall (p : RPath)
  | attribCall (p : RPath)
deriving Repr, DecidableEq

/-- The OS world of the legacy removal chain.  Deletion calls are indexed
by their ordinal within one fallback run, so a retry after `attrib -R`
may succeed where the first call failed.  `readLinkResolved` yields the
symlink target already resolved against the link's parent directory. -/
structure FsEnv where
  windows : Bool
  is_file_locked : RPath → Bool
  find_processes_by_file : RPath → Except String (List Nat)
  isSymlink : RPath → Bool
  readLinkResolved : RPath → Option RPath
  sysCritical : RPath → Bool
  removeFile : RPath → Nat → Option IoKind
  removeDir : RPath → Nat → Option IoKind
  readDirHasEntries : RPath → Option Bool
  attrib : RPath → Option Bool

/-- `classify_deletion_error` (`src/file.rs`, lines 68-91): map the
standard kinds, and on Windows additionally decode raw OS codes 32
(sharing violation → locked), 5 (access denied) and 145 (directory not
empty); everything else is a plain IO error. -/
def classify_deletion_error (windows : Bool) (p : RPath) (k : IoKind) :
    RmErr :=
  match k with
  | .permissionDenied => .permissionDenied p
  | .notFound => .notFound p
  | .dirNotEmpty => .dirNotEmpty p
  | .otherKind raw =>
      if windows then
        match raw.getD 0 with
        | 32 => .fileLocked p
        | 5 => .permissionDenied p
        | 145 => .dirNotEmpty p
        | _ => .ioError p
      else .ioError p

/-- `try_remove_readonly_attribute` (`src/file.rs`, lines 509-522): on
Windows run `attrib -R` and report its exit status; elsewhere do nothing
and report failure. -/
def try_remove_readonly_attribute (env : FsEnv) (p : RPath) :
    Bool × List Effect :=
  if env.windows then ((env.attrib p).getD false, [.attribCall p])
  else (false, [])

/-- `remove_symlink_safely` (`src/file.rs`, lines 525-562): refuse
non-symlinks; when the resolved target is a system-critical path, refuse
without deleting; otherwise delete the link itself with `remove_file`. -/
def remove_symlink_safely (env : FsEnv) (p : RPath) :
    Except RmErr Unit × List Effect :=
  if !env.isSymlink p then (.error (.notSymlink p), [])
  else
    match env.readLinkResolved p with
    | some target =>
        if env.sysCritical target then (.error (.criticalLink p), [])
        else
          match env.removeFile p 0 with
          | none => (.ok (), [.removeFileCall p])
          | some _ => (.error (.removeFailed p), [.removeFileCall p])
    | none =>
        match env.removeFile p 0 with
        | none => (.ok (), [.removeFileCall p])
        | some _ => (.error (.removeFailed p), [.removeFileCall p])

/-- `remove_symlink_directory_safely` (`src/file.rs`, lines 605-642):
the directory-symlink twin of `remove_symlink_safely`; the link itself is
removed with `remove_file`. -/
def remove_symlink_directory_safely (env : FsEnv) (p : RPath) :
    Except RmErr Unit × List Effect :=
  if !env.isSymlink p then (.error (.notSymlink p), [])
  else
    match env.readLinkResolved p with
    | some target =>
        if env.sysCritical target then (.error (.criticalLink p), [])
        else
          match env.removeFile p 0 with
          | none => (.ok (), [.removeFileCall p])
          | some _ => (.error (.removeFailed p), [.removeFileCall p])
    | none =>
        match env.removeFile p 0 with
        | none => (.ok (), [.removeFileCall p])
        | some _ => (.error (.removeFailed p), [.removeFileCall p])

/-- `remove_file_with_fallback` (`src/file.rs`, lines 473-506): symlinks
go through the safe path; otherwise try `remove_file`, and on a
permission-denied classification clear the read-only attribute and retry
once; locked and other classifications surface directly. -/
def remove_file_with_fallback (env : FsEnv) (p : RPath) :
    Except RmErr Unit × List Effect :=
  if env.isSymlink p then remove_symlink_safely env p
  else
    match env.removeFile p 0 with
    | none => (.ok (), [.removeFileCall p])
    | some k =>
        let de := classify_deletion_error env.windows p k
        match de with
        | .permissionDenied _ =>
            let att := try_remove_readonly_attribute env p
            if att.1 then
              match env.removeFile p 1 with
              | none => (.ok (), .removeFileCall p :: (att.2 ++ [.removeFileCall p]))
              | some _ =>
                  (.error de, .removeFileCall p :: (att.2 ++ [.removeFileCall p]))
            else (.error de, .removeFileCall p :: att.2)
        | .fileLocked _ => (.error de, [.removeFileCall p])
        | _ => (.error de, [.removeFileCall p])

/-- `remove_directory_with_fallback` (`src/file.rs`, lines 565-602):
symlinked directories go through the safe path; an unreadable directory
is treated as already gone; a non-empty one is refused; otherwise try
`remove_dir`, then on Windows `attrib -R` plus a retry, then one last
`remove_dir`. -/
def remove_directory_with_fallback (env : FsEnv) (p : RPath) :
    Except RmErr Unit × List Effect :=
  if env.isSymlink p then remove_symlink_directory_safely env p
  else
    match env.readDirHasEntries p with
    | some true => (.error (.dirNotEmpty p), [])
    | none => (.ok (), [])
    | some false =>
        match env.removeDir p 0 with
        | none => (.ok (), [.removeDirCall p])
        | some _ =>
            if env.windows then
              if (env.attrib p).isSome then
                match env.removeDir p 1 with
                | none => (.ok (), [.removeDirCall p, .attribCall p, .removeDirCall p])
                | some _ =>
                    match env.removeDir p 2 with
                    | none =>
                        (.ok (), [.removeDirCall p, .attribCall p,
                          .removeDirCall p, .removeDirCall p])
                    | some _ =>
                        (.error (.removeFailed p), [.removeDirCall p, .attribCall p,
                          .removeDirCall p, .removeDirCall p])
              else
                match env.removeDir p 1 with
                | none => (.ok (), [.removeDirCall p, .attribCall p, .removeDirCall p])
                | some _ =>
                    (.error (.removeFailed p), [.removeDirCall p, .attribCall p,
                      .removeDirCall p])
            else
              match env.removeDir p 1 with
              | none => (.ok (), [.removeDirCall p, .removeDirCall p])
              | some _ =>
                  (.error (.removeFailed p), [.removeDirCall p, .removeDirCall p])

/-- `attempt_remove_file` (`src/file.rs`, lines 400-470): when the entry
is detected locked, either fail immediately ("retry with --anyway") when
force is not requested, or — under force — kill the identified holders
before deleting; an unidentifiable or unobtainable holder list fails on
the first attempt only.  Unlocked entries (and later attempts) proceed to
the actual deletion. -/
def attempt_remove_file (env : FsEnv) (file : FileInfo) (anyway : Bool)
    (attempt : Nat) : Except RmErr Unit × List Effect :=
  let doDelete :=
    if file.is_dir then remove_directory_with_fallback env file.path
    else remove_file_with_fallback env file.path
  if env.is_file_locked file.path then
    if anyway then
      match env.find_processes_by_file file.path with
      | .ok pids =>
          if !pids.isEmpty then
            (doDelete.1, pids.map Effect.killForce ++ doDelete.2)
          else if attempt == 1 then
            (.error (.lockedUnidentifiable file.path), [])
          else doDelete
      | .error e =>
          if attempt == 1 then (.error (.holderLookupFailed file.path e), [])
          else doDelete
    else (.error (.lockedUseAnyway file.path), [])
  else doDelete

/-- `remove_single_file` (`src/file.rs`, lines 359-397): up to 3 attempts
with backoff; the first success wins, otherwise the last error is
surfaced. -/
def remove_single_file (env : FsEnv) (file : FileInfo) (anyway : Bool) :
    Except RmErr Unit × List Effect :=
  let a1 := attempt_remove_file env file anyway 1
  match a1.1 with
  | .ok _ => (.ok (), a1.2)
  | .error _ =>
      let a2 := attempt_remove_file env file anyway 2
      match a2.1 with
      | .ok _ => (.ok (), a1.2 ++ a2.2)
      | .error _ =>
          let a3 := attempt_remove_file env file anyway 3
          match a3.1 with
          | .ok _ => (.ok (), a1.2 ++ a2.2 ++ a3.2)
          | .error e => (.error e, a1.2 ++ a2.2 ++ a3.2)

/-- The legacy `remove_files` (`src/file.rs`, lines 288-337): sort the
plan (files first, deeper first) and process each entry through
`remove_single_file` — or report a hypothetical success under `dry_run`. -/
def legacy_remove_files (env : FsEnv) (files : List FileInfo)
    (dry_run : Bool) (anyway : Bool) :
    List (RPath × Except RmErr Unit) × List Effect :=
  (sortForRemoval files).foldl (fun acc f =>
    let r := if dry_run then ((.ok () : Except RmErr Unit), ([] : List Effect))
             else remove_single_file env f anyway
    (acc.1 ++ [(f.path, r.1)], acc.2 ++ r.2)) ([], [])

/-- C2. For every environment and entry detected as locked, removal
without the force flag (`--anyway`) yields the Locked-kind error telling
the user to retry with force, and performs no OS action at all — in
particular zero deletion calls, so zero bytes of the entry are deleted. -/
theorem locked_entry_without_force_errors (env : FsEnv) (file : FileInfo)
    (h : env.is_file_locked file.path = true) :
    remove_single_file env file false =
      (.error (.lockedUseAnyway file.path), []) := by
  have hattempt : ∀ attempt, attempt_remove_file env file false attempt =
      (.error (.lockedUseAnyway file.path), []) := by
    intro attempt
    unfold attempt_remove_file
    simp [h]
  unfold remove_single_file
  simp [hattempt]

/-- An OS world whose lock probe reports every path locked. -/
def egLockedFsEnv : FsEnv :=
  { windows := false
    is_file_locked := fun _ => true
    find_processes_by_file := fun _ => .ok []
    isSymlink := fun _ => false
    readLinkResolved := fun _ => none
    sysCritical := fun _ => false
    removeFile := fun _ _ => none
    removeDir := fun _ _ => none
    readDirHasEntries := fun _ => some false
    attrib := fun _ => none }

/-- Witness for C2 at a concrete locked file entry. -/
theorem locked_entry_without_force_errors_witness :
    remove_single_file egLockedFsEnv ⟨["f"], false, 4, false⟩ false =
      (.error (.lockedUseAnyway ["f"]), []) :=
  locked_entry_without_force_errors egLockedFsEnv ⟨["f"], false, 4, false⟩ rfl

end Ziro
